import Mathlib

/-!
Verification of the virtual ESCPOS printer emulator
(`tests/integration_tests/emulator/`): the stream command parser
(`command_parser.py`), the printer state machine (`printer_state.py`),
the fault-injection engine (`error_simulator.py`) and the connection
layer (`virtual_printer.py`), shallowly embedded in Lean.

Bytes are modelled as natural numbers; byte strings as `List Nat`.
Wall-clock instants and durations are modelled as rationals; each
operation that reads the clock takes the current instant as an explicit
argument.  Decoded parameter dictionaries are elided except for the two
keys the state machine reads (`__force_new__`, `__mirrored__`), since no
verified property inspects the other decoded parameters; `rawData` is
kept exactly.
-/

/-- Decoded protocol unit as produced by `EscposCommandParser`:
the `type` label and the exact consumed bytes (`raw_data`). -/
structure ParsedCmd where
  type : String
  rawData : List Nat
  deriving DecidableEq

/-- ESC control byte (0x1B). -/
def ESC : Nat := 27
/-- GS control byte (0x1D). -/
def GS : Nat := 29
/-- Line feed byte (0x0A). -/
def LF : Nat := 10
/-- Carriage return byte (0x0D). -/
def CR : Nat := 13

/-- Mirrors `EscposCommandParser._parse_simple_command`: consume a fixed
number of bytes when available. -/
def parseSimpleCommand (commandType : String) (length : Nat) (buf : List Nat) :
    Option ParsedCmd × List Nat :=
  if buf.length < length then (none, buf)
  else (some ⟨commandType, buf.take length⟩, buf.drop length)

/-- Mirrors `EscposCommandParser._parse_print_mode_command` (ESC ! n).
Parameter-bit decoding is elided; consumption and raw data are exact. -/
def parsePrintModeCommand (buf : List Nat) : Option ParsedCmd × List Nat :=
  if buf.length < 3 then (none, buf)
  else (some ⟨"print_mode", buf.take 3⟩, buf.drop 3)

/-- Mirrors `EscposCommandParser._parse_underline_command` (ESC - n). -/
def parseUnderlineCommand (buf : List Nat) : Option ParsedCmd × List Nat :=
  if buf.length < 3 then (none, buf)
  else (some ⟨"underline", buf.take 3⟩, buf.drop 3)

/-- Mirrors `EscposCommandParser._parse_justification_command` (ESC a n). -/
def parseJustificationCommand (buf : List Nat) : Option ParsedCmd × List Nat :=
  if buf.length < 3 then (none, buf)
  else (some ⟨"alignment", buf.take 3⟩, buf.drop 3)

/-- Mirrors `EscposCommandParser._parse_feed_command` (ESC d n). -/
def parseFeedCommand (buf : List Nat) : Option ParsedCmd × List Nat :=
  if buf.length < 3 then (none, buf)
  else (some ⟨"feed", buf.take 3⟩, buf.drop 3)

/-- Mirrors `EscposCommandParser._parse_codepage_command` (ESC t n).
The codepage-to-encoding side effect only influences decoded text
strings, which no verified property inspects, so it is elided. -/
def parseCodepageCommand (buf : List Nat) : Option ParsedCmd × List Nat :=
  if buf.length < 3 then (none, buf)
  else (some ⟨"codepage", buf.take 3⟩, buf.drop 3)

/-- Mirrors `EscposCommandParser._parse_cut_command` (GS V m). -/
def parseCutCommand (buf : List Nat) : Option ParsedCmd × List Nat :=
  if buf.length < 3 then (none, buf)
  else (some ⟨"cut", buf.take 3⟩, buf.drop 3)

/-- Mirrors `EscposCommandParser._parse_barcode_command`
(GS k m k d1..dk): the payload length is the byte at offset 3. -/
def parseBarcodeCommand (buf : List Nat) : Option ParsedCmd × List Nat :=
  if buf.length < 4 then (none, buf)
  else
    let k := buf.getD 3 0
    let total := 4 + k
    if buf.length < total then (none, buf)
    else (some ⟨"barcode", buf.take total⟩, buf.drop total)

/-- Mirrors `EscposCommandParser._parse_image_command`
(GS ( pL pH m d1..dk): data length is `pL + pH * 256`; note the source
requires at least 6 buffered bytes before it decodes the header. -/
def parseImageCommand (buf : List Nat) : Option ParsedCmd × List Nat :=
  if buf.length < 6 then (none, buf)
  else
    let pL := buf.getD 2 0
    let pH := buf.getD 3 0
    let dataLength := pL + pH * 256
    let total := 5 + dataLength
    if buf.length < total then (none, buf)
    else (some ⟨"image", buf.take total⟩, buf.drop total)

/-- Mirrors `EscposCommandParser._parse_hri_position_command` (GS H n). -/
def parseHriPositionCommand (buf : List Nat) : Option ParsedCmd × List Nat :=
  if buf.length < 3 then (none, buf)
  else (some ⟨"hri_position", buf.take 3⟩, buf.drop 3)

/-- Mirrors `EscposCommandParser._parse_hri_font_command` (GS f n). -/
def parseHriFontCommand (buf : List Nat) : Option ParsedCmd × List Nat :=
  if buf.length < 3 then (none, buf)
  else (some ⟨"hri_font", buf.take 3⟩, buf.drop 3)

/-- Mirrors `EscposCommandParser._parse_barcode_width_command` (GS w n). -/
def parseBarcodeWidthCommand (buf : List Nat) : Option ParsedCmd × List Nat :=
  if buf.length < 3 then (none, buf)
  else (some ⟨"barcode_width", buf.take 3⟩, buf.drop 3)

/-- Mirrors `EscposCommandParser._parse_barcode_height_command` (GS h n). -/
def parseBarcodeHeightCommand (buf : List Nat) : Option ParsedCmd × List Nat :=
  if buf.length < 3 then (none, buf)
  else (some ⟨"barcode_height", buf.take 3⟩, buf.drop 3)

/-- Mirrors `EscposCommandParser._parse_esc_command`: dispatch on the
byte after ESC; an unrecognized selector consumes the two prefix bytes
and yields no command. -/
def parseEscCommand (buf : List Nat) : Option ParsedCmd × List Nat :=
  if buf.length < 2 then (none, buf)
  else
    let commandByte := buf.getD 1 0
    if commandByte = 64 then parseSimpleCommand "initialize" 2 buf
    else if commandByte = 33 then parsePrintModeCommand buf
    else if commandByte = 45 then parseUnderlineCommand buf
    else if commandByte = 97 then parseJustificationCommand buf
    else if commandByte = 100 then parseFeedCommand buf
    else if commandByte = 105 then parseSimpleCommand "cut_partial" 2 buf
    else if commandByte = 109 then parseSimpleCommand "cut_full" 2 buf
    else if commandByte = 116 then parseCodepageCommand buf
    else (none, buf.drop 2)

/-- Mirrors `EscposCommandParser._parse_gs_command`: dispatch on the
byte after GS; an unrecognized selector consumes the two prefix bytes
and yields no command. -/
def parseGsCommand (buf : List Nat) : Option ParsedCmd × List Nat :=
  if buf.length < 2 then (none, buf)
  else
    let commandByte := buf.getD 1 0
    if commandByte = 86 then parseCutCommand buf
    else if commandByte = 107 then parseBarcodeCommand buf
    else if commandByte = 40 then parseImageCommand buf
    else if commandByte = 72 then parseHriPositionCommand buf
    else if commandByte = 102 then parseHriFontCommand buf
    else if commandByte = 119 then parseBarcodeWidthCommand buf
    else if commandByte = 104 then parseBarcodeHeightCommand buf
    else (none, buf.drop 2)

/-- Predicate used by `_parse_text_data`: a byte that terminates a text
run (`byte in (self.ESC, self.GS, self.LF, self.CR)`). -/
def isControlByte (b : Nat) : Bool :=
  b == ESC || b == GS || b == LF || b == CR

/-- Mirrors `EscposCommandParser._parse_text_data`: consume the run of
bytes up to the next control byte (or the whole buffer).  The decoded
string parameter is elided; `raw_data` is exact. -/
def parseTextData (buf : List Nat) : Option ParsedCmd × List Nat :=
  let endPos := (buf.findIdx? isControlByte).getD buf.length
  if endPos = 0 then (none, buf)
  else (some ⟨"text", buf.take endPos⟩, buf.drop endPos)

/-- Mirrors `EscposCommandParser._parse_single_command`: dispatch on the
leading byte.  Returns the decoded command (if a complete one is
available) and the remaining buffer. -/
def parseSingleCommand (buf : List Nat) : Option ParsedCmd × List Nat :=
  match buf with
  | [] => (none, [])
  | b :: _ =>
    if b = ESC then parseEscCommand buf
    else if b = GS then parseGsCommand buf
    else if b = LF then parseSimpleCommand "feed" 1 buf
    else if b = CR then parseSimpleCommand "carriage_return" 1 buf
    else parseTextData buf

/-- Mirrors the `while self._buffer:` loop inside
`EscposCommandParser.parse_command`: repeatedly decode single commands
from the front of the buffer, stopping at the first decode that yields
no command (which may still have consumed unrecognized prefix bytes).
Fuel-indexed for termination; every decoded command consumes at least
one byte, so fuel equal to the buffer length is always sufficient. -/
def parseLoop : Nat → List Nat → List ParsedCmd × List Nat
  | 0, buf => ([], buf)
  | fuel + 1, buf =>
    if buf = [] then ([], buf)
    else
      match parseSingleCommand buf with
      | (some c, buf2) =>
        let rest := parseLoop fuel buf2
        (c :: rest.1, rest.2)
      | (none, buf2) => ([], buf2)

/-- Mirrors `EscposCommandParser.parse_command`: append the new data to
the buffer, decode all complete commands, and return `commands[0]` (the
source returns only the first decoded command) together with the
remaining buffer.  The first component of the pair is the returned
value; the second is the parser's mutated buffer. -/
def parseCommand (data : List Nat) (buffer : List Nat) :
    Option ParsedCmd × List Nat :=
  let buf := buffer ++ data
  let r := parseLoop buf.length buf
  (r.1.head?, r.2)

/-- Mirrors the internal `commands` list of
`EscposCommandParser.parse_command` before it is truncated to
`commands[0]`: every complete command decoded (and consumed) by one
call. -/
def parseCommandAll (data : List Nat) (buffer : List Nat) :
    List ParsedCmd × List Nat :=
  parseLoop (buffer ++ data).length (buffer ++ data)

/-- Mirrors the drain loop of `ClientConnection._process_data`:
after the initial `parse_command(data)`, keep calling
`parse_command(b"")` until it returns no command, collecting the
returned commands in order.  Fuel-indexed; fuel `buffer length + 1`
is sufficient since each successful call consumes at least one byte. -/
def drainCommands : Nat → List Nat → List ParsedCmd × List Nat
  | 0, buf => ([], buf)
  | fuel + 1, buf =>
    match parseCommand [] buf with
    | (some c, buf2) =>
      let rest := drainCommands fuel buf2
      (c :: rest.1, rest.2)
    | (none, buf2) => ([], buf2)

/-- Full per-read protocol of `ClientConnection._process_data`: one
`parse_command(data)` call followed by repeated `parse_command(b"")`
drain calls until no more output; the list of commands actually yielded
to the connection, with the final parser buffer. -/
def feedAndDrain (data : List Nat) (buffer : List Nat) :
    List ParsedCmd × List Nat :=
  match parseCommand data buffer with
  | (some c, buf2) =>
    let rest := drainCommands (buf2.length + 1) buf2
    (c :: rest.1, rest.2)
  | (none, buf2) => ([], buf2)

/-- Mirrors `EscposCommandParser.clear_buffer`. -/
def clearParserBuffer (_buf : List Nat) : List Nat := []

/-- Print job record (`printer_state.PrintJob`); the timestamp and the
parameters dictionary are elided. -/
structure PrintJob where
  contentType : String
  data : List Nat
  deriving DecidableEq

/-- Command record (`printer_state.Command`); the timestamp is elided
and of the parameters dictionary exactly the two keys read by
`PrinterState.update_state` are kept: `__force_new__` and
`__mirrored__` (both absent, hence false, for parser-produced
commands). -/
structure Command where
  commandType : String
  rawData : List Nat
  forceNew : Bool
  mirrored : Bool
  deriving DecidableEq

/-- State of `printer_state.PrinterState`.  The last-text-command
instant (`_last_text_time`, an event-loop time) is a rational. -/
structure PrinterSt where
  online : Bool
  paperStatus : String
  buffer : List (List Nat)
  printHistory : List PrintJob
  commandLog : List Command
  lastTextTime : Option ℚ
  deriving DecidableEq

/-- Initial `PrinterState` as built by `PrinterState.__init__`. -/
def initialPrinter : PrinterSt :=
  { online := true, paperStatus := "loaded", buffer := [],
    printHistory := [], commandLog := [], lastTextTime := none }

/-- Replace the last element of a list, mirroring in-place mutation of
`list[-1]` on a list known (or checked) to be non-empty. -/
def updateLast {α : Type} (l : List α) (f : α → α) : List α :=
  match l.getLast? with
  | some a => l.dropLast ++ [f a]
  | none => l

/-- Mirrors `PrinterState._add_print_job` (timestamp elided). -/
def addPrintJob (st : PrinterSt) (contentType : String) (data : List Nat) :
    PrinterSt :=
  { st with printHistory := st.printHistory ++ [⟨contentType, data⟩] }

/-- Coalescing window of `PrinterState.update_state`: 0.005 seconds. -/
def textWindow : ℚ := 5 / 1000

/-- Mirrors `PrinterState.update_state`; `now` is the event-loop
instant read at the top of the text branch
(`asyncio.get_event_loop().time()`). -/
def updateState (st : PrinterSt) (cmd : Command) (now : ℚ) : PrinterSt :=
  if cmd.commandType = "text" then
    let recentText : Bool :=
      match st.lastTextTime with
      | some t => decide (now - t < textWindow)
      | none => false
    let lastIsText : Bool :=
      match st.commandLog.getLast? with
      | some c => c.commandType == "text"
      | none => false
    if cmd.mirrored && recentText && lastIsText then
      { st with lastTextTime := some now }
    else if recentText && !cmd.forceNew && lastIsText then
      let lastJobIsText : Bool :=
        match st.printHistory.getLast? with
        | some j => j.contentType == "text"
        | none => false
      { st with
        commandLog :=
          updateLast st.commandLog
            (fun c => { c with rawData := c.rawData ++ cmd.rawData }),
        printHistory :=
          if lastJobIsText then
            updateLast st.printHistory
              (fun j => { j with data := j.data ++ cmd.rawData })
          else st.printHistory,
        lastTextTime := some now }
    else
      { st with
        commandLog := st.commandLog ++ [cmd],
        buffer := st.buffer ++ [cmd.rawData],
        printHistory := st.printHistory ++ [⟨"text", cmd.rawData⟩],
        lastTextTime := some now }
  else
    let st1 := { st with commandLog := st.commandLog ++ [cmd] }
    if cmd.commandType = "cut" then
      if st1.buffer ≠ [] then
        { st1 with
          printHistory := st1.printHistory ++ [⟨"text", st1.buffer.flatten⟩],
          buffer := [] }
      else st1
    else if cmd.commandType = "feed" then st1
    else if cmd.commandType = "qr" then addPrintJob st1 "qr" cmd.rawData
    else if cmd.commandType = "image" then addPrintJob st1 "image" cmd.rawData
    else if cmd.commandType = "barcode" then
      addPrintJob st1 "barcode" cmd.rawData
    else st1

/-- Mirrors `PrinterState.simulate_error`. -/
def simulateError (st : PrinterSt) (errorType : String) : PrinterSt :=
  if errorType = "offline" then { st with online := false }
  else if errorType = "paper_out" then { st with paperStatus := "out" }
  else if errorType = "paper_jam" then { st with paperStatus := "jammed" }
  else if errorType = "reset" then
    { st with online := true, paperStatus := "loaded", buffer := [] }
  else st

/-- Mirrors `PrinterState.clear_history`. -/
def clearHistory (st : PrinterSt) : PrinterSt :=
  { st with printHistory := [], commandLog := [], buffer := [],
            lastTextTime := none }

/-- Fault-injection rule (`error_simulator.ErrorCondition`).  The
trigger value is optional (the source stores `None` for `immediate`
conditions); the recovery predicate receives the `elapsed_since_error`
and `command_type` keyword arguments that
`ErrorSimulator.process_command` passes it. -/
structure ErrCond where
  errorType : String
  triggerType : String
  triggerValue : Option ℚ
  duration : Option ℚ
  recoveryType : String
  recoveryCondition : Option (ℚ → String → Bool)

/-- Python truthiness of `self.duration`: neither `None` nor zero. -/
def durationTruthy (c : ErrCond) : Bool :=
  match c.duration with
  | some d => decide (d ≠ 0)
  | none => false

/-- Mirrors `ErrorCondition.should_trigger`; `rand` stands for the
uniform draw `random.random()` made in the `random` branch. -/
def shouldTrigger (c : ErrCond) (commandCount : Nat) (elapsedTime : ℚ)
    (rand : ℚ) : Bool :=
  if c.triggerType = "immediate" then true
  else if c.triggerType = "after_commands" then
    match c.triggerValue with
    | some v => decide ((commandCount : ℚ) ≥ v)
    | none => false
  else if c.triggerType = "after_time" then
    match c.triggerValue with
    | some v => decide (elapsedTime ≥ v)
    | none => false
  else if c.triggerType = "random" then
    match c.triggerValue with
    | some v => decide (rand < v)
    | none => false
  else false

/-- Mirrors `ErrorCondition.should_recover` with the keyword arguments
supplied by `ErrorSimulator.process_command`. -/
def shouldRecover (c : ErrCond) (elapsedSinceError : ℚ)
    (commandType : String) : Bool :=
  if c.recoveryType == "auto" && durationTruthy c then
    decide (elapsedSinceError ≥ c.duration.getD 0)
  else if c.recoveryType == "conditional" && c.recoveryCondition.isSome then
    (c.recoveryCondition.getD (fun _ _ => false)) elapsedSinceError commandType
  else false

/-- State of `error_simulator.ErrorSimulator`: the registered
conditions in insertion order (a dict keyed by error type), the
append-only history as (errorType, action) pairs (timestamps and
condition snapshots elided), and the command counter. -/
structure SimState where
  activeErrors : List (String × ErrCond)
  errorHistory : List (String × String)
  commandCount : Nat

/-- Mirrors `ErrorSimulator._activate_error` (history entry only; the
condition snapshot and timestamp are elided). -/
def activateError (st : SimState) (c : ErrCond) : SimState :=
  { st with errorHistory := st.errorHistory ++ [(c.errorType, "activated")] }

/-- Mirrors `ErrorSimulator.add_error_condition` (dict insert keyed by
error type). -/
def addErrorCondition (st : SimState) (c : ErrCond) : SimState :=
  { st with activeErrors :=
      (st.activeErrors.filter (fun p => p.1 ≠ c.errorType)) ++
        [(c.errorType, c)] }

/-- Mirrors `ErrorSimulator.remove_error_condition`. -/
def removeErrorCondition (st : SimState) (errorType : String) : SimState :=
  { st with activeErrors :=
      st.activeErrors.filter (fun p => p.1 ≠ errorType) }

/-- Mirrors `ErrorSimulator.trigger_error`: activate the registered
condition of that type, or synthesize and activate a transient
`immediate` condition.  Note the source records a history entry but
never inserts anything into `active_errors`. -/
def triggerError (st : SimState) (errorType : String) : SimState :=
  match st.activeErrors.lookup errorType with
  | some c => activateError st c
  | none =>
    activateError st
      { errorType := errorType, triggerType := "immediate",
        triggerValue := none, duration := none,
        recoveryType := "manual", recoveryCondition := none }

/-- Mirrors `ErrorSimulator.process_command` on its completed
executions.  `elapsedTime` is the clock reading minus `start_time`;
`rand` feeds the `random` trigger branch.  The `elapsed_since_error`
value handed to `should_recover` is the constant 0: the source passes
`elapsed_since_error=kwargs.get('elapsed_since_error', 0)` together
with `**kwargs`, so an invocation that supplies that keyword raises
`TypeError` (duplicate keyword argument) at the recovery evaluation and
never completes, and every caller in the repository supplies no keyword
arguments at all, pinning the value to the default 0.  Returns the new
state and the first newly activated error type. -/
def processCommand (st : SimState) (commandType : String)
    (elapsedTime : ℚ) (rand : ℚ) :
    SimState × Option String :=
  let count := st.commandCount + 1
  let fired :=
    st.activeErrors.filter (fun p => shouldTrigger p.2 count elapsedTime rand)
  let hist1 := st.errorHistory ++ fired.map (fun p => (p.1, "activated"))
  let firstError := (fired.map Prod.fst).head?
  let recovered :=
    st.activeErrors.filter
      (fun p => shouldRecover p.2 0 commandType)
  let hist2 := hist1 ++ recovered.map (fun p => (p.1, "recovered"))
  let active2 :=
    st.activeErrors.filter
      (fun p =>
        !(shouldRecover p.2 0 commandType &&
          (p.2.recoveryType == "auto" || p.2.recoveryType == "conditional")))
  ({ activeErrors := active2, errorHistory := hist2, commandCount := count },
   firstError)

/-- Fold a sequence of `process_command` calls; each call supplies its
command type and the two environment readings (elapsed clock time and
the random draw). -/
def runCalls (st : SimState) (calls : List (String × ℚ × ℚ)) : SimState :=
  calls.foldl
    (fun s c => (processCommand s c.1 c.2.1 c.2.2).1) st

/-- Server-level state relevant to connection handling
(`virtual_printer.VirtualPrinterServer`): the simulator's registered
error types drive connection admission; clients are identified by
numbers; the shared parser buffer and printer state are threaded
through. -/
structure ServerSt where
  activeErrors : List (String × ErrCond)
  clients : List Nat
  parserBuf : List Nat
  printer : PrinterSt
  nextClient : Nat

/-- Convert a parser-produced command dictionary into a
`printer_state.Command` as `ClientConnection._process_data` does; the
parser never sets `__force_new__` or `__mirrored__`. -/
def toCommand (c : ParsedCmd) : Command :=
  { commandType := c.type, rawData := c.rawData,
    forceNew := false, mirrored := false }

/-- Mirrors `VirtualPrinterServer._handle_connection`: while an
`offline` condition is registered with the error simulator the accepted
connection is closed immediately (no client added, nothing decoded);
otherwise the client joins the client list.  The boolean reports
whether the connection was accepted. -/
def handleConnection (st : ServerSt) : ServerSt × Bool :=
  if "offline" ∈ st.activeErrors.map Prod.fst then (st, false)
  else
    ({ st with clients := st.clients ++ [st.nextClient],
               nextClient := st.nextClient + 1 }, true)

/-- Mirrors one read of `ClientConnection.handle_client` followed by
`_process_data` for an already-connected client: drain the shared
parser and fold every decoded command into the shared printer state.
The simulator's `process_command` return value is discarded by the
source and its state does not influence decoding or printing, so it is
not threaded here. -/
def clientProcessData (st : ServerSt) (id : Nat) (data : List Nat)
    (now : ℚ) : ServerSt :=
  if id ∈ st.clients then
    let r := feedAndDrain data st.parserBuf
    { st with
      parserBuf := r.2,
      printer :=
        r.1.foldl (fun p c => updateState p (toCommand c) now) st.printer }
  else st

/-- Mirrors `ClientConnection._create_status_response`, evaluated on a
status snapshot of the printer state: a single status byte with bit 3
(0x08) for offline and bit 5 (0x20) for a paper problem. -/
def createStatusResponse (st : PrinterSt) : List Nat :=
  let b0 : Nat := 0
  let b1 := if !st.online then b0 ||| 8 else b0
  let b2 := if st.paperStatus ≠ "loaded" then b1 ||| 32 else b1
  [b2]

/-- Mirrors `ClientConnection._send_response`: only a `status_request`
command writes anything back. -/
def sendResponse (commandType : String) (st : PrinterSt) :
    Option (List Nat) :=
  if commandType = "status_request" then some (createStatusResponse st)
  else none

/-- Command-type labels the spec's closed set names (claim wording):
used to compare the specified set against the parser's actual output. -/
def specCommandTypes : List String :=
  ["text", "initialize", "print_mode", "underline", "alignment", "feed",
   "codepage", "cut", "barcode", "image", "hri_position", "hri_font",
   "barcode_width", "barcode_height", "carriage_return", "unrecognized"]

/-- Command-type labels the parser can actually emit (the source's
strings): the spec set with `cut_partial` and `cut_full` added and the
never-emitted `unrecognized` sentinel removed. -/
def emittedCommandTypes : List String :=
  ["text", "initialize", "print_mode", "underline", "alignment", "feed",
   "codepage", "cut", "cut_partial", "cut_full", "barcode", "image",
   "hri_position", "hri_font", "barcode_width", "barcode_height",
   "carriage_return"]

/-- Complete encodings of the command grammar rules that yield a
`Command`, excluding free text runs: each constructor records the exact
byte shape a rule of `command_parser.py` consumes.  For the image rule
the declared data length must be non-zero, since the source refuses to
decode before 6 bytes are buffered. -/
inductive Enc : String → List Nat → Prop where
  | initCmd : Enc "initialize" [27, 64]
  | printMode (n : Nat) : Enc "print_mode" [27, 33, n]
  | underline (n : Nat) : Enc "underline" [27, 45, n]
  | alignment (n : Nat) : Enc "alignment" [27, 97, n]
  | escFeed (n : Nat) : Enc "feed" [27, 100, n]
  | cutP : Enc "cut_partial" [27, 105]
  | cutF : Enc "cut_full" [27, 109]
  | codepage (n : Nat) : Enc "codepage" [27, 116, n]
  | gsCut (m : Nat) : Enc "cut" [29, 86, m]
  | barcode (m : Nat) (d : List Nat) :
      Enc "barcode" ([29, 107, m, d.length] ++ d)
  | image (pL pH m : Nat) (d : List Nat) (hd : d.length = pL + pH * 256)
      (hnz : d.length ≠ 0) : Enc "image" ([29, 40, pL, pH, m] ++ d)
  | hriPosition (n : Nat) : Enc "hri_position" [29, 72, n]
  | hriFont (n : Nat) : Enc "hri_font" [29, 102, n]
  | barcodeWidth (n : Nat) : Enc "barcode_width" [29, 119, n]
  | barcodeHeight (n : Nat) : Enc "barcode_height" [29, 104, n]
  | lf : Enc "feed" [10]
  | cr : Enc "carriage_return" [13]

/-- Fold of `update_state` over a sequence of text commands carrying
the `__force_new__` marker (as `update_state_sync` sets for text), each
with its own arrival instant: the non-coalescing text sequence of the
cut-flush property. -/
def applyTexts (st : PrinterSt) (txts : List (List Nat × ℚ)) : PrinterSt :=
  txts.foldl
    (fun s pt => updateState s ⟨"text", pt.1, true, false⟩ pt.2) st

/-- Concrete `after_commands` condition with threshold 2, used to
evaluate the trigger property on a concrete state. -/
def afterCmdCond : ErrCond :=
  { errorType := "paper_out", triggerType := "after_commands",
    triggerValue := some 2, duration := none,
    recoveryType := "manual", recoveryCondition := none }

/-- Concrete simulator state: the threshold-2 condition registered and
one command already processed. -/
def simFix : SimState :=
  { activeErrors := [("paper_out", afterCmdCond)],
    errorHistory := [], commandCount := 1 }

/-- Concrete `auto`-recovery condition with duration 2. -/
def autoCond : ErrCond :=
  { errorType := "timeout", triggerType := "after_time",
    triggerValue := some 30, duration := some 2, recoveryType := "auto",
    recoveryCondition := none }

/-- Concrete simulator state holding the `auto` condition. -/
def simFixAuto : SimState :=
  { activeErrors := [("timeout", autoCond)], errorHistory := [],
    commandCount := 0 }

/-- Concrete registered `offline` condition. -/
def offlineCond : ErrCond :=
  { errorType := "offline", triggerType := "immediate",
    triggerValue := none, duration := none, recoveryType := "manual",
    recoveryCondition := none }

/-- Concrete server state: offline condition registered, one open
client connection (id 7). -/
def serverFix : ServerSt :=
  { activeErrors := [("offline", offlineCond)], clients := [7],
    parserBuf := [], printer := initialPrinter, nextClient := 8 }

lemma parseLoop_nil (fuel : Nat) : parseLoop fuel [] = ([], []) := by
  cases fuel <;> simp [parseLoop]

lemma parseLoop_none {buf buf2 : List Nat} (hb : buf ≠ [])
    (h : parseSingleCommand buf = (none, buf2)) (fuel : Nat) :
    parseLoop (fuel + 1) buf = ([], buf2) := by
  simp [parseLoop, hb, h]

lemma parseLoop_some {buf buf2 : List Nat} {c : ParsedCmd} (hb : buf ≠ [])
    (h : parseSingleCommand buf = (some c, buf2)) (fuel : Nat) :
    parseLoop (fuel + 1) buf =
      (c :: (parseLoop fuel buf2).1, (parseLoop fuel buf2).2) := by
  simp [parseLoop, hb, h]

lemma parseSimpleCommand_spec {ty : String} {n : Nat} {buf rest : List Nat}
    {c : ParsedCmd} (hn : 1 ≤ n)
    (h : parseSimpleCommand ty n buf = (some c, rest)) :
    buf = c.rawData ++ rest ∧ c.rawData ≠ [] ∧ c.type = ty := by
  unfold parseSimpleCommand at h
  split at h
  · simp at h
  · next hlen =>
    simp only [Prod.mk.injEq, Option.some.injEq] at h
    obtain ⟨hc, hr⟩ := h
    subst hc
    subst hr
    refine ⟨(List.take_append_drop n buf).symm, ?_, rfl⟩
    intro hnil
    have hlen2 := congrArg List.length hnil
    simp only [List.length_take, List.length_nil] at hlen2
    omega

lemma barcode_full (m : Nat) (d : List Nat) :
    parseSingleCommand ([29, 107, m, d.length] ++ d) =
      (some ⟨"barcode", [29, 107, m, d.length] ++ d⟩, []) := by
  simp only [List.cons_append, List.nil_append]
  simp [parseSingleCommand, parseGsCommand, parseBarcodeCommand,
    ESC, GS, LF, CR]
  rw [if_neg (by omega), if_neg (by omega), if_neg (by omega)]
  rw [List.take_of_length_le (by simp; omega),
      List.drop_eq_nil_of_le (by simp; omega)]

lemma image_full (pL pH m : Nat) (d : List Nat) (hd : d.length = pL + pH * 256)
    (hnz : d.length ≠ 0) :
    parseSingleCommand ([29, 40, pL, pH, m] ++ d) =
      (some ⟨"image", [29, 40, pL, pH, m] ++ d⟩, []) := by
  simp only [List.cons_append, List.nil_append]
  simp [parseSingleCommand, parseGsCommand, parseImageCommand,
    ESC, GS, LF, CR]
  rw [if_neg (by omega), if_neg (by omega), if_neg (by omega)]
  rw [← hd]
  rw [List.take_of_length_le (by simp; omega),
      List.drop_eq_nil_of_le (by simp; omega)]

lemma enc_parse_full {ty : String} {E : List Nat} (he : Enc ty E) :
    parseSingleCommand E = (some ⟨ty, E⟩, []) := by
  cases he with
  | initCmd => decide
  | printMode n =>
    simp [parseSingleCommand, parseEscCommand, parsePrintModeCommand,
      ESC, GS, LF, CR]
  | underline n =>
    simp [parseSingleCommand, parseEscCommand, parseUnderlineCommand,
      ESC, GS, LF, CR]
  | alignment n =>
    simp [parseSingleCommand, parseEscCommand, parseJustificationCommand,
      ESC, GS, LF, CR]
  | escFeed n =>
    simp [parseSingleCommand, parseEscCommand, parseFeedCommand,
      ESC, GS, LF, CR]
  | cutP => decide
  | cutF => decide
  | codepage n =>
    simp [parseSingleCommand, parseEscCommand, parseCodepageCommand,
      ESC, GS, LF, CR]
  | gsCut m =>
    simp [parseSingleCommand, parseGsCommand, parseCutCommand,
      ESC, GS, LF, CR]
  | barcode m d => exact barcode_full m d
  | image pL pH m d hd hnz => exact image_full pL pH m d hd hnz
  | hriPosition n =>
    simp [parseSingleCommand, parseGsCommand, parseHriPositionCommand,
      ESC, GS, LF, CR]
  | hriFont n =>
    simp [parseSingleCommand, parseGsCommand, parseHriFontCommand,
      ESC, GS, LF, CR]
  | barcodeWidth n =>
    simp [parseSingleCommand, parseGsCommand, parseBarcodeWidthCommand,
      ESC, GS, LF, CR]
  | barcodeHeight n =>
    simp [parseSingleCommand, parseGsCommand, parseBarcodeHeightCommand,
      ESC, GS, LF, CR]
  | lf => decide
  | cr => decide

lemma barcode_take_none (m : Nat) (d : List Nat) (i : Nat) (h1 : 0 < i)
    (h2 : i < ([29, 107, m, d.length] ++ d).length) :
    parseSingleCommand (([29, 107, m, d.length] ++ d).take i) =
      (none, ([29, 107, m, d.length] ++ d).take i) := by
  simp only [List.cons_append, List.nil_append] at h2 ⊢
  simp only [List.length_cons] at h2
  by_cases hi : i < 4
  · interval_cases i
    · simp only [List.take_succ_cons, List.take_zero]
      decide
    · simp only [List.take_succ_cons, List.take_zero]
      decide
    · simp only [List.take_succ_cons, List.take_zero]
      simp [parseSingleCommand, parseGsCommand, parseBarcodeCommand,
        ESC, GS, LF, CR]
  · obtain ⟨j, rfl⟩ : ∃ j, i = j + 4 := ⟨i - 4, by omega⟩
    simp only [List.take_succ_cons]
    simp [parseSingleCommand, parseGsCommand, parseBarcodeCommand,
      ESC, GS, LF, CR]
    omega

lemma image_take_none (pL pH m : Nat) (d : List Nat)
    (hd : d.length = pL + pH * 256) (i : Nat) (h1 : 0 < i)
    (h2 : i < ([29, 40, pL, pH, m] ++ d).length) :
    parseSingleCommand (([29, 40, pL, pH, m] ++ d).take i) =
      (none, ([29, 40, pL, pH, m] ++ d).take i) := by
  simp only [List.cons_append, List.nil_append] at h2 ⊢
  simp only [List.length_cons] at h2
  by_cases hi : i < 6
  · interval_cases i
    · simp only [List.take_succ_cons, List.take_zero]
      decide
    · simp only [List.take_succ_cons, List.take_zero]
      simp [parseSingleCommand, parseGsCommand, parseImageCommand,
        ESC, GS, LF, CR]
    · simp only [List.take_succ_cons, List.take_zero]
      simp [parseSingleCommand, parseGsCommand, parseImageCommand,
        ESC, GS, LF, CR]
    · simp only [List.take_succ_cons, List.take_zero]
      simp [parseSingleCommand, parseGsCommand, parseImageCommand,
        ESC, GS, LF, CR]
    · simp only [List.take_succ_cons, List.take_zero]
      simp [parseSingleCommand, parseGsCommand, parseImageCommand,
        ESC, GS, LF, CR]
  · obtain ⟨j, rfl⟩ : ∃ j, i = j + 5 := ⟨i - 5, by omega⟩
    simp only [List.take_succ_cons]
    simp [parseSingleCommand, parseGsCommand, parseImageCommand,
      ESC, GS, LF, CR]
    intros
    omega

lemma enc_take_none {ty : String} {E : List Nat} (he : Enc ty E) (i : Nat)
    (h1 : 0 < i) (h2 : i < E.length) :
    parseSingleCommand (E.take i) = (none, E.take i) := by
  cases he with
  | initCmd =>
    simp only [List.length_cons, List.length_nil] at h2
    interval_cases i
    decide
  | printMode n =>
    simp only [List.length_cons, List.length_nil] at h2
    interval_cases i <;> simp only [List.take_succ_cons, List.take_zero] <;>
      decide
  | underline n =>
    simp only [List.length_cons, List.length_nil] at h2
    interval_cases i <;> simp only [List.take_succ_cons, List.take_zero] <;>
      decide
  | alignment n =>
    simp only [List.length_cons, List.length_nil] at h2
    interval_cases i <;> simp only [List.take_succ_cons, List.take_zero] <;>
      decide
  | escFeed n =>
    simp only [List.length_cons, List.length_nil] at h2
    interval_cases i <;> simp only [List.take_succ_cons, List.take_zero] <;>
      decide
  | cutP =>
    simp only [List.length_cons, List.length_nil] at h2
    interval_cases i
    decide
  | cutF =>
    simp only [List.length_cons, List.length_nil] at h2
    interval_cases i
    decide
  | codepage n =>
    simp only [List.length_cons, List.length_nil] at h2
    interval_cases i <;> simp only [List.take_succ_cons, List.take_zero] <;>
      decide
  | gsCut m =>
    simp only [List.length_cons, List.length_nil] at h2
    interval_cases i <;> simp only [List.take_succ_cons, List.take_zero] <;>
      decide
  | barcode m d => exact barcode_take_none m d i h1 h2
  | image pL pH m d hd hnz => exact image_take_none pL pH m d hd i h1 h2
  | hriPosition n =>
    simp only [List.length_cons, List.length_nil] at h2
    interval_cases i <;> simp only [List.take_succ_cons, List.take_zero] <;>
      decide
  | hriFont n =>
    simp only [List.length_cons, List.length_nil] at h2
    interval_cases i <;> simp only [List.take_succ_cons, List.take_zero] <;>
      decide
  | barcodeWidth n =>
    simp only [List.length_cons, List.length_nil] at h2
    interval_cases i <;> simp only [List.take_succ_cons, List.take_zero] <;>
      decide
  | barcodeHeight n =>
    simp only [List.length_cons, List.length_nil] at h2
    interval_cases i <;> simp only [List.take_succ_cons, List.take_zero] <;>
      decide
  | lf => simp only [List.length_cons, List.length_nil] at h2; omega
  | cr => simp only [List.length_cons, List.length_nil] at h2; omega

lemma parseBarcodeCommand_spec {buf rest : List Nat} {c : ParsedCmd}
    (h : parseBarcodeCommand buf = (some c, rest)) :
    buf = c.rawData ++ rest ∧ c.rawData ≠ [] ∧ c.type = "barcode" := by
  unfold parseBarcodeCommand at h
  dsimp only at h
  split at h
  · simp at h
  · next h4 =>
    split at h
    · simp at h
    · next htot =>
      simp only [Prod.mk.injEq, Option.some.injEq] at h
      obtain ⟨hc, hr⟩ := h
      subst hc
      subst hr
      refine ⟨(List.take_append_drop _ buf).symm, ?_, rfl⟩
      intro hnil
      have hlen2 := congrArg List.length hnil
      simp only [List.length_take, List.length_nil] at hlen2
      omega

lemma parseImageCommand_spec {buf rest : List Nat} {c : ParsedCmd}
    (h : parseImageCommand buf = (some c, rest)) :
    buf = c.rawData ++ rest ∧ c.rawData ≠ [] ∧ c.type = "image" := by
  unfold parseImageCommand at h
  dsimp only at h
  split at h
  · simp at h
  · next h6 =>
    split at h
    · simp at h
    · next htot =>
      simp only [Prod.mk.injEq, Option.some.injEq] at h
      obtain ⟨hc, hr⟩ := h
      subst hc
      subst hr
      refine ⟨(List.take_append_drop _ buf).symm, ?_, rfl⟩
      intro hnil
      have hlen2 := congrArg List.length hnil
      simp only [List.length_take, List.length_nil] at hlen2
      omega

lemma parseTextData_spec {buf rest : List Nat} {c : ParsedCmd}
    (h : parseTextData buf = (some c, rest)) :
    buf = c.rawData ++ rest ∧ c.rawData ≠ [] ∧ c.type = "text" := by
  unfold parseTextData at h
  dsimp only at h
  split at h
  · simp at h
  · next hpos =>
    have hne : buf ≠ [] := by
      rintro rfl
      simp [List.findIdx?] at hpos
    simp only [Prod.mk.injEq, Option.some.injEq] at h
    obtain ⟨hc, hr⟩ := h
    subst hc
    subst hr
    refine ⟨(List.take_append_drop _ buf).symm, ?_, rfl⟩
    intro hnil
    have hlen2 := congrArg List.length hnil
    simp only [List.length_take, List.length_nil] at hlen2
    have hb : buf.length ≠ 0 := fun hz => hne (List.length_eq_zero.mp hz)
    omega

lemma parseEscCommand_spec {buf rest : List Nat} {c : ParsedCmd}
    (h : parseEscCommand buf = (some c, rest)) :
    buf = c.rawData ++ rest ∧ c.rawData ≠ [] ∧
      c.type ∈ emittedCommandTypes := by
  unfold parseEscCommand at h
  dsimp only at h
  split at h
  · simp at h
  · split_ifs at h
    case _ =>
      obtain ⟨ha, hb, hc⟩ := parseSimpleCommand_spec (by norm_num) h
      exact ⟨ha, hb, by rw [hc]; decide⟩
    case _ =>
      obtain ⟨ha, hb, hc⟩ :=
        parseSimpleCommand_spec (n := 3) (by norm_num) h
      exact ⟨ha, hb, by rw [hc]; decide⟩
    case _ =>
      obtain ⟨ha, hb, hc⟩ :=
        parseSimpleCommand_spec (n := 3) (by norm_num) h
      exact ⟨ha, hb, by rw [hc]; decide⟩
    case _ =>
      obtain ⟨ha, hb, hc⟩ :=
        parseSimpleCommand_spec (n := 3) (by norm_num) h
      exact ⟨ha, hb, by rw [hc]; decide⟩
    case _ =>
      obtain ⟨ha, hb, hc⟩ :=
        parseSimpleCommand_spec (n := 3) (by norm_num) h
      exact ⟨ha, hb, by rw [hc]; decide⟩
    case _ =>
      obtain ⟨ha, hb, hc⟩ := parseSimpleCommand_spec (by norm_num) h
      exact ⟨ha, hb, by rw [hc]; decide⟩
    case _ =>
      obtain ⟨ha, hb, hc⟩ := parseSimpleCommand_spec (by norm_num) h
      exact ⟨ha, hb, by rw [hc]; decide⟩
    case _ =>
      obtain ⟨ha, hb, hc⟩ :=
        parseSimpleCommand_spec (n := 3) (by norm_num) h
      exact ⟨ha, hb, by rw [hc]; decide⟩
    case _ => simp at h

lemma parseGsCommand_spec {buf rest : List Nat} {c : ParsedCmd}
    (h : parseGsCommand buf = (some c, rest)) :
    buf = c.rawData ++ rest ∧ c.rawData ≠ [] ∧
      c.type ∈ emittedCommandTypes := by
  unfold parseGsCommand at h
  dsimp only at h
  split at h
  · simp at h
  · split_ifs at h
    case _ =>
      obtain ⟨ha, hb, hc⟩ :=
        parseSimpleCommand_spec (n := 3) (by norm_num) h
      exact ⟨ha, hb, by rw [hc]; decide⟩
    case _ =>
      obtain ⟨ha, hb, hc⟩ := parseBarcodeCommand_spec h
      exact ⟨ha, hb, by rw [hc]; decide⟩
    case _ =>
      obtain ⟨ha, hb, hc⟩ := parseImageCommand_spec h
      exact ⟨ha, hb, by rw [hc]; decide⟩
    case _ =>
      obtain ⟨ha, hb, hc⟩ :=
        parseSimpleCommand_spec (n := 3) (by norm_num) h
      exact ⟨ha, hb, by rw [hc]; decide⟩
    case _ =>
      obtain ⟨ha, hb, hc⟩ :=
        parseSimpleCommand_spec (n := 3) (by norm_num) h
      exact ⟨ha, hb, by rw [hc]; decide⟩
    case _ =>
      obtain ⟨ha, hb, hc⟩ :=
        parseSimpleCommand_spec (n := 3) (by norm_num) h
      exact ⟨ha, hb, by rw [hc]; decide⟩
    case _ =>
      obtain ⟨ha, hb, hc⟩ :=
        parseSimpleCommand_spec (n := 3) (by norm_num) h
      exact ⟨ha, hb, by rw [hc]; decide⟩
    case _ => simp at h

lemma parseSingleCommand_spec {buf rest : List Nat} {c : ParsedCmd}
    (h : parseSingleCommand buf = (some c, rest)) :
    buf = c.rawData ++ rest ∧ c.rawData ≠ [] ∧
      c.type ∈ emittedCommandTypes := by
  match buf with
  | [] => simp [parseSingleCommand] at h
  | b :: bs =>
    unfold parseSingleCommand at h
    dsimp only at h
    split_ifs at h
    case _ => exact parseEscCommand_spec h
    case _ => exact parseGsCommand_spec h
    case _ =>
      obtain ⟨ha, hb, hc⟩ := parseSimpleCommand_spec (by norm_num) h
      exact ⟨ha, hb, by rw [hc]; decide⟩
    case _ =>
      obtain ⟨ha, hb, hc⟩ := parseSimpleCommand_spec (by norm_num) h
      exact ⟨ha, hb, by rw [hc]; decide⟩
    case _ =>
      obtain ⟨ha, hb, hc⟩ := parseTextData_spec h
      exact ⟨ha, hb, by rw [hc]; decide⟩

lemma parseSingleCommand_shrinks {buf rest : List Nat} {c : ParsedCmd}
    (h : parseSingleCommand buf = (some c, rest)) :
    rest.length < buf.length := by
  obtain ⟨ha, hb, _⟩ := parseSingleCommand_spec h
  rw [ha, List.length_append]
  have : c.rawData.length ≠ 0 := fun hz => hb (List.length_eq_zero.mp hz)
  omega

lemma parseLoop_types (fuel : Nat) :
    ∀ buf c, c ∈ (parseLoop fuel buf).1 → c.type ∈ emittedCommandTypes := by
  induction fuel with
  | zero => intro buf c hc; simp [parseLoop] at hc
  | succ k ih =>
    intro buf c hc
    by_cases hb : buf = []
    · subst hb; simp [parseLoop] at hc
    · rcases hps : parseSingleCommand buf with ⟨o, buf2⟩
      cases o with
      | none => simp [parseLoop, hb, hps] at hc
      | some c2 =>
        simp only [parseLoop, if_neg hb, hps] at hc
        rcases List.mem_cons.mp hc with rfl | hc2
        · exact (parseSingleCommand_spec hps).2.2
        · exact ih buf2 c hc2

/-- C2 (amended): for every control-prefixed command grammar rule that
yields a `Command` (all ESC/GS/LF/CR rules, including the variable
length barcode and the 16-bit length-prefixed image rule with a
non-zero declared length — free text runs excluded), splitting the full
encoding at any interior byte boundary into two `parse_command` calls
emits nothing on the first call and exactly one `Command` whose
`raw_data` is the full encoding on the second; and in general any
emitted command's `raw_data` is exactly the bytes the rule consumed
from the front of the buffer. -/
theorem c2_split_feed :
    (∀ (ty : String) (E : List Nat), Enc ty E → ∀ i, 0 < i → i < E.length →
      parseCommand (E.take i) [] = (none, E.take i) ∧
      parseCommand (E.drop i) (E.take i) = (some ⟨ty, E⟩, [])) ∧
    (∀ (buf rest : List Nat) (c : ParsedCmd),
      parseSingleCommand buf = (some c, rest) → buf = c.rawData ++ rest) := by
  constructor
  · intro ty E he i h1 h2
    have hEi : E.take i ≠ [] := by
      intro hnil
      have hl := congrArg List.length hnil
      simp only [List.length_take, List.length_nil] at hl
      omega
    have hlen : (E.take i).length ≠ 0 :=
      fun hz => hEi (List.length_eq_zero.mp hz)
    constructor
    · unfold parseCommand
      dsimp only
      simp only [List.nil_append]
      obtain ⟨k, hk⟩ : ∃ k, (E.take i).length = k + 1 :=
        ⟨(E.take i).length - 1, by omega⟩
      rw [hk, parseLoop_none hEi (enc_take_none he i h1 h2) k]
      rfl
    · unfold parseCommand
      dsimp only
      rw [List.take_append_drop]
      have hE : E ≠ [] := by
        rintro rfl
        simp at h2
      obtain ⟨k, hk⟩ : ∃ k, E.length = k + 1 :=
        ⟨E.length - 1, by
          have : E.length ≠ 0 := fun hz => hE (List.length_eq_zero.mp hz)
          omega⟩
      rw [hk, parseLoop_some hE (enc_parse_full he) k, parseLoop_nil]
      rfl
  · intro buf rest c h
    exact (parseSingleCommand_spec h).1

/-- C2 witness: the barcode encoding GS k 0 1 0x41 split after its
second byte is emitted exactly once, on the second call, with the full
raw data. -/
theorem c2_witness :
    parseCommand (List.take 2 [29, 107, 0, 1, 65]) [] =
      (none, List.take 2 [29, 107, 0, 1, 65]) ∧
    parseCommand (List.drop 2 [29, 107, 0, 1, 65])
        (List.take 2 [29, 107, 0, 1, 65]) =
      (some ⟨"barcode", [29, 107, 0, 1, 65]⟩, []) :=
  c2_split_feed.1 "barcode" ([29, 107, 0, (1 : Nat)] ++ [65])
    (Enc.barcode 0 [65]) 2 (by decide) (by decide)

/-- C2 counterexample: the text rule is a command grammar rule, and for
the two-byte text encoding `"AB"` split at byte boundary 1 the first
`parse_command` call already emits a `Command` (text `"A"`), so the
claim as stated over every grammar rule is false. -/
theorem c2_counterexample :
    parseCommand [65, 66] [] = (some ⟨"text", [65, 66]⟩, []) ∧
    parseCommand (List.take 1 [65, 66]) [] =
      (some ⟨"text", [65]⟩, []) := by decide

/-- C6 (amended): every `Command` the parser emits — any element of the
decode loop's output, hence also any value returned by `parse_command`
— has a command type in the closed set {text, initialize, print_mode,
underline, alignment, feed, codepage, cut, cut_partial, cut_full,
barcode, image, hri_position, hri_font, barcode_width, barcode_height,
carriage_return}: the spec's set with the two ESC cut variants added
and the never-emitted `unrecognized` sentinel removed. -/
theorem c6_emitted_types :
    (∀ fuel buf c, c ∈ (parseLoop fuel buf).1 →
      c.type ∈ emittedCommandTypes) ∧
    (∀ data buffer c buf2, parseCommand data buffer = (some c, buf2) →
      c.type ∈ emittedCommandTypes) := by
  refine ⟨fun fuel buf c h => parseLoop_types fuel buf c h, ?_⟩
  intro data buffer c buf2 h
  unfold parseCommand at h
  dsimp only at h
  simp only [Prod.mk.injEq] at h
  exact parseLoop_types _ _ c
    (List.mem_of_mem_head? (by rw [h.1]; exact rfl))

/-- C6 witness: the feed command decoded from a lone LF byte has its
type in the emitted set. -/
theorem c6_witness :
    (⟨"feed", [10]⟩ : ParsedCmd) ∈ (parseLoop 1 [10]).1 ∧
    (⟨"feed", [10]⟩ : ParsedCmd).type ∈ emittedCommandTypes :=
  ⟨by decide, c6_emitted_types.1 1 [10] ⟨"feed", [10]⟩ (by decide)⟩

/-- C6 counterexample: the input ESC i is emitted as a `Command` of
type `cut_partial`, which is not in the spec's claimed closed set. -/
theorem c6_counterexample :
    parseCommand [27, 105] [] = (some ⟨"cut_partial", [27, 105]⟩, []) ∧
    "cut_partial" ∉ specCommandTypes := by decide

/-- C1 (code_bug evaluation): at the failing input `b"\x0a\x0a"` (two
complete LF feed commands) the internal loop of `parse_command` decodes
and consumes both commands, but the feed-then-drain protocol of
`_process_data` yields only the first: `parse_command` returns
`commands[0]` and the drain call finds an empty buffer, so the second
feed is silently discarded, contradicting the claim (and the function's
own docstring) that every complete command is yielded. -/
theorem c1_drain_discards :
    parseCommandAll [10, 10] [] =
      ([⟨"feed", [10]⟩, ⟨"feed", [10]⟩], []) ∧
    feedAndDrain [10, 10] [] = ([⟨"feed", [10]⟩], []) := by decide

lemma updateState_text_forceNew (st : PrinterSt) (d : List Nat) (now : ℚ) :
    updateState st ⟨"text", d, true, false⟩ now =
      { st with
        commandLog := st.commandLog ++ [⟨"text", d, true, false⟩],
        buffer := st.buffer ++ [d],
        printHistory := st.printHistory ++ [⟨"text", d⟩],
        lastTextTime := some now } := by
  simp [updateState]

lemma applyTexts_spec (txts : List (List Nat × ℚ)) : ∀ st : PrinterSt,
    (applyTexts st txts).buffer = st.buffer ++ txts.map Prod.fst ∧
    (applyTexts st txts).printHistory =
      st.printHistory ++ txts.map (fun pt => PrintJob.mk "text" pt.1) ∧
    (applyTexts st txts).commandLog =
      st.commandLog ++ txts.map (fun pt => Command.mk "text" pt.1 true false) := by
  induction txts with
  | nil => intro st; simp [applyTexts]
  | cons pt rest ih =>
    intro st
    have hstep :
        applyTexts st (pt :: rest) =
          applyTexts (updateState st ⟨"text", pt.1, true, false⟩ pt.2) rest := by
      simp [applyTexts]
    rw [hstep, updateState_text_forceNew]
    obtain ⟨h1, h2, h3⟩ := ih _
    refine ⟨?_, ?_, ?_⟩
    · rw [h1]; simp
    · rw [h2]; simp
    · rw [h3]; simp

/-- C3 (amended): starting from a flushed buffer, after a non-empty
sequence of non-coalescing text commands followed by one cut command,
the cut appends exactly one additional `PrintJob` of type `text` whose
`data` is the concatenation of all text payloads received since the
last flush, clears the buffer, and logs the cut; the text commands
themselves had each already recorded their own `PrintJob` on arrival,
which is what the original claim's "exactly one PrintJob" misses. -/
theorem c3_cut_flush (st : PrinterSt) (txts : List (List Nat × ℚ))
    (cutCmd : Command) (now : ℚ) (hb : st.buffer = []) (hne : txts ≠ [])
    (hc : cutCmd.commandType = "cut") :
    updateState (applyTexts st txts) cutCmd now =
      { applyTexts st txts with
        commandLog := (applyTexts st txts).commandLog ++ [cutCmd],
        printHistory := (applyTexts st txts).printHistory ++
          [⟨"text", (txts.map Prod.fst).flatten⟩],
        buffer := [] } := by
  obtain ⟨h1, _, _⟩ := applyTexts_spec txts st
  have hbuf : (applyTexts st txts).buffer = txts.map Prod.fst := by
    rw [h1, hb, List.nil_append]
  have hbne : (applyTexts st txts).buffer ≠ [] := by
    rw [hbuf]
    simpa using hne
  have hnt : cutCmd.commandType ≠ "text" := by rw [hc]; decide
  simp only [updateState, if_neg hnt, hc, if_pos rfl]
  simp [hbne, hbuf, hne]

/-- C3 counterexample: one text command (payload `"A"`) followed by a
cut produces two `PrintJob`s of type `text` — `update_state` records a
print job for the text command itself and a second one at the cut
flush — refuting "exactly one PrintJob with contentType text". -/
theorem c3_counterexample :
    (updateState (updateState initialPrinter ⟨"text", [65], false, false⟩ 0)
        ⟨"cut", [29, 86, 65], false, false⟩ 1).printHistory =
      [⟨"text", [65]⟩, ⟨"text", [65]⟩] ∧
    ((updateState (updateState initialPrinter ⟨"text", [65], false, false⟩ 0)
        ⟨"cut", [29, 86, 65], false, false⟩ 1).printHistory.filter
      (fun j => j.contentType == "text")).length = 2 := by decide

/-- C3 witness: two concrete text commands followed by a cut, applied
to the initial printer state. -/
theorem c3_witness :
    updateState (applyTexts initialPrinter [([72], 0), ([105], 1)])
        ⟨"cut", [29, 86, 65], false, false⟩ 2 =
      { applyTexts initialPrinter [([72], 0), ([105], 1)] with
        commandLog :=
          (applyTexts initialPrinter [([72], 0), ([105], 1)]).commandLog ++
            [⟨"cut", [29, 86, 65], false, false⟩],
        printHistory :=
          (applyTexts initialPrinter [([72], 0), ([105], 1)]).printHistory ++
            [⟨"text", ([([72], (0 : ℚ)), ([105], 1)].map Prod.fst).flatten⟩],
        buffer := [] } :=
  c3_cut_flush initialPrinter [([72], 0), ([105], 1)]
    ⟨"cut", [29, 86, 65], false, false⟩ 2 rfl (by decide) rfl

/-- C10: for every command whose type is none of text, cut, qr, image
or barcode (initialize, print-mode, the ESC cut variants, feed, and so
on), `update_state` exactly appends the command to the command log and
leaves the online flag, paper status, buffer and print history
untouched — in particular `cut_partial`/`cut_full` do not flush the
buffer or produce a `PrintJob`. -/
theorem c10_frame (st : PrinterSt) (cmd : Command) (now : ℚ)
    (h : cmd.commandType ∉ ["text", "cut", "qr", "image", "barcode"]) :
    updateState st cmd now = { st with commandLog := st.commandLog ++ [cmd] } := by
  simp only [List.mem_cons, List.mem_singleton, not_or] at h
  obtain ⟨h1, h2, h3, h4, h5⟩ := h
  simp [updateState, h1, h2, h3, h4, h5]

/-- C10 witness: an `initialize` command only appends itself to the
command log of the initial state. -/
theorem c10_witness :
    updateState initialPrinter ⟨"initialize", [27, 64], false, false⟩ 0 =
      { initialPrinter with
        commandLog := initialPrinter.commandLog ++
          [⟨"initialize", [27, 64], false, false⟩] } :=
  c10_frame initialPrinter ⟨"initialize", [27, 64], false, false⟩ 0 (by decide)

/-- C8: after a reset (`simulate_error "reset"`) the printer is online
with paper loaded and an empty buffer while the command log and print
history are untouched; after `clear_history` the command log, print
history and buffer are empty while the online flag and paper status are
unchanged. -/
theorem c8_reset_clear (st : PrinterSt) :
    (simulateError st "reset").online = true ∧
    (simulateError st "reset").paperStatus = "loaded" ∧
    (simulateError st "reset").buffer = [] ∧
    (simulateError st "reset").commandLog = st.commandLog ∧
    (simulateError st "reset").printHistory = st.printHistory ∧
    (clearHistory st).commandLog = [] ∧
    (clearHistory st).printHistory = [] ∧
    (clearHistory st).buffer = [] ∧
    (clearHistory st).online = st.online ∧
    (clearHistory st).paperStatus = st.paperStatus := by
  simp [simulateError, clearHistory]

/-- C9: the status response is a single byte whose bit 3 (0x08) is set
exactly when the printer is offline and whose bit 5 (0x20) is set
exactly when the paper status is not `loaded`; only a `status_request`
command produces a response, every other command type produces none. -/
theorem c9_status (st : PrinterSt) (ty : String) :
    (createStatusResponse st).length = 1 ∧
    (Nat.testBit ((createStatusResponse st).headD 0) 3 = true ↔
      st.online = false) ∧
    (Nat.testBit ((createStatusResponse st).headD 0) 5 = true ↔
      st.paperStatus ≠ "loaded") ∧
    (ty ≠ "status_request" → sendResponse ty st = none) ∧
    sendResponse "status_request" st = some (createStatusResponse st) := by
  refine ⟨?_, ?_, ?_, ?_, ?_⟩
  · cases hon : st.online <;> by_cases hp : st.paperStatus = "loaded" <;>
      simp [createStatusResponse, hon, hp]
  · cases hon : st.online <;> by_cases hp : st.paperStatus = "loaded" <;>
      simp [createStatusResponse, hon, hp] <;> decide
  · cases hon : st.online <;> by_cases hp : st.paperStatus = "loaded" <;>
      simp [createStatusResponse, hon, hp] <;> decide
  · intro hne
    simp [sendResponse, hne]
  · simp [sendResponse]

/-- C9 witness: a `text` command produces no response byte. -/
theorem c9_witness :
    sendResponse "text" initialPrinter = none :=
  (c9_status initialPrinter "text").2.2.2.1 (by decide)

lemma keyUnique {l : List (String × ErrCond)}
    (hnd : (l.map Prod.fst).Nodup) {ty : String} {c1 c2 : ErrCond}
    (h1 : (ty, c1) ∈ l) (h2 : (ty, c2) ∈ l) : c1 = c2 := by
  have := List.inj_on_of_nodup_map hnd h1 h2 rfl
  exact congrArg Prod.snd this

lemma shouldTrigger_afterCommands {cond : ErrCond} {N : ℕ}
    (ht : cond.triggerType = "after_commands")
    (hv : cond.triggerValue = some (N : ℚ)) (count : ℕ) (elp rand : ℚ) :
    shouldTrigger cond count elp rand = decide (N ≤ count) := by
  unfold shouldTrigger
  rw [ht]
  simp [hv, ge_iff_le, Nat.cast_le]

/-- C4: a registered condition with trigger type `after_commands` and
threshold N produces an activation record during the i-th call to
`process_command` (the call that raises the counter to i) precisely
when N ≤ i — so it activates on the Nth call and on no earlier call —
independently of the command type processed; and the command counter
after any sequence of calls equals the number of calls made. -/
theorem c4_after_commands :
    (∀ (st : SimState) (cond : ErrCond) (ty cmdTy : String) (N i : ℕ)
      (elp rand : ℚ),
      cond.triggerType = "after_commands" →
      cond.triggerValue = some (N : ℚ) →
      (ty, cond) ∈ st.activeErrors →
      (st.activeErrors.map Prod.fst).Nodup →
      st.commandCount + 1 = i →
      (((ty, "activated") ∈
          (processCommand st cmdTy elp rand).1.errorHistory.drop
            st.errorHistory.length) ↔ N ≤ i)) ∧
    (∀ (st0 : SimState) (calls : List (String × ℚ × ℚ)),
      (runCalls st0 calls).commandCount = st0.commandCount + calls.length) := by
  constructor
  · intro st cond ty cmdTy N i elp rand ht hv hmem hnd hcount
    unfold processCommand
    dsimp only
    rw [List.append_assoc, List.drop_left]
    simp only [List.mem_append, List.mem_map]
    constructor
    · rintro (⟨p, hp, heq⟩ | ⟨p, hp, heq⟩)
      · obtain ⟨hpmem, hptrig⟩ := List.mem_filter.mp hp
        have hfst : p.1 = ty := congrArg Prod.fst heq
        have hpc : p.2 = cond := by
          apply keyUnique hnd _ hmem
          rw [← hfst]
          exact hpmem
        rw [hpc, shouldTrigger_afterCommands ht hv] at hptrig
        rw [← hcount]
        exact of_decide_eq_true hptrig
      · exact absurd (congrArg Prod.snd heq) (by simp)
    · intro hNi
      refine Or.inl ⟨(ty, cond), List.mem_filter.mpr ⟨hmem, ?_⟩, rfl⟩
      rw [shouldTrigger_afterCommands ht hv]
      rw [← hcount] at hNi
      exact decide_eq_true hNi
  · intro st0 calls
    induction calls generalizing st0 with
    | nil => simp [runCalls]
    | cons c rest ih =>
      have hstep : runCalls st0 (c :: rest) =
          runCalls (processCommand st0 c.1 c.2.1 c.2.2).1 rest := by
        simp [runCalls]
      rw [hstep, ih]
      simp [processCommand]
      omega

/-- C4 witness: a threshold-2 condition activates on the second call. -/
theorem c4_witness :
    ("paper_out", "activated") ∈
      (processCommand simFix "text" 0 0).1.errorHistory.drop
        simFix.errorHistory.length :=
  (c4_after_commands.1 simFix afterCmdCond "paper_out" "text" 2 2 0 0 rfl
    (by norm_num [afterCmdCond]) (by simp [simFix])
    (by simp [simFix, afterCmdCond]) rfl).mpr (by norm_num)

/-- C5 (code_bug evaluation): `autoCond` is an `auto` condition with
the positive duration 2, registered in `simFixAuto`.  Every completed
`process_command` execution evaluates `should_recover` with the
`elapsed_since_error` value pinned to 0 — the source forwards the
keyword both explicitly and through `**kwargs`, so supplying it raises
`TypeError`, and no repository caller supplies it — hence the recovery
check `0 >= duration` is false on every call and the condition is never
removed from `active_errors`, however many calls are made and however
much clock time has passed since its activation; the claim says it is
removed once `duration` seconds have elapsed since activation. -/
theorem c5_auto_never_removed :
    autoCond.recoveryType = "auto" ∧ autoCond.duration = some 2 ∧
    ("timeout", autoCond) ∈ simFixAuto.activeErrors ∧
    ∀ calls : List (String × ℚ × ℚ),
      ("timeout", autoCond) ∈ (runCalls simFixAuto calls).activeErrors := by
  have hsr : ∀ cmdTy : String, shouldRecover autoCond 0 cmdTy = false := by
    intro cmdTy
    unfold shouldRecover
    simp [autoCond, durationTruthy]
  have hkeep : ∀ (st : SimState) (cmdTy : String) (elp rand : ℚ),
      ("timeout", autoCond) ∈ st.activeErrors →
      ("timeout", autoCond) ∈
        (processCommand st cmdTy elp rand).1.activeErrors := by
    intro st cmdTy elp rand hmem
    unfold processCommand
    dsimp only
    refine List.mem_filter.mpr ⟨hmem, ?_⟩
    simp [hsr]
  have hall : ∀ (calls : List (String × ℚ × ℚ)) (st : SimState),
      ("timeout", autoCond) ∈ st.activeErrors →
      ("timeout", autoCond) ∈ (runCalls st calls).activeErrors := by
    intro calls
    induction calls with
    | nil =>
      intro st h
      simpa [runCalls] using h
    | cons c rest ih =>
      intro st h
      have hstep : runCalls st (c :: rest) =
          runCalls (processCommand st c.1 c.2.1 c.2.2).1 rest := by
        simp [runCalls]
      rw [hstep]
      exact ih _ (hkeep st c.1 c.2.1 c.2.2 h)
  exact ⟨rfl, rfl, by simp [simFixAuto],
    fun calls => hall calls simFixAuto (by simp [simFixAuto])⟩

/-- C7: while an `offline` condition is registered with the error
simulator, `_handle_connection` closes a newly attempted connection
unchanged — no client is added and nothing is decoded; the data
processing of an already-open connection does not depend on the
registered error conditions at all, and an open client's data is still
decoded by the shared parser and folded into the printer state
(command log included) exactly as when no condition is active. -/
theorem c7_offline (st : ServerSt) (id : Nat) (data : List Nat) (now : ℚ)
    (a : List (String × ErrCond)) :
    ("offline" ∈ st.activeErrors.map Prod.fst →
      handleConnection st = (st, false)) ∧
    (clientProcessData { st with activeErrors := a } id data now =
      { clientProcessData st id data now with activeErrors := a }) ∧
    (id ∈ st.clients →
      clientProcessData st id data now =
        { st with
          parserBuf := (feedAndDrain data st.parserBuf).2,
          printer := (feedAndDrain data st.parserBuf).1.foldl
            (fun p c => updateState p (toCommand c) now) st.printer }) := by
  refine ⟨?_, ?_, ?_⟩
  · intro hoff
    simp [handleConnection, hoff]
  · by_cases hid : id ∈ st.clients
    · simp [clientProcessData, hid]
    · simp [clientProcessData, hid]
  · intro hid
    simp [clientProcessData, hid]

/-- C7 witness: with an `offline` condition registered, a new
connection is rejected while client 7's line feed is still decoded and
processed. -/
theorem c7_witness :
    handleConnection serverFix = (serverFix, false) ∧
    clientProcessData serverFix 7 [10] 0 =
      { serverFix with
        parserBuf := (feedAndDrain [10] serverFix.parserBuf).2,
        printer := (feedAndDrain [10] serverFix.parserBuf).1.foldl
          (fun p c => updateState p (toCommand c) 0) serverFix.printer } :=
  ⟨(c7_offline serverFix 7 [10] 0 []).1 (by simp [serverFix]),
   (c7_offline serverFix 7 [10] 0 []).2.2 (by simp [serverFix])⟩
